import Mathlib

/-!
Shallow embedding of the openbanking payment service.

The repository contains two variants of the payment tools:

* `src/openbanking-mcp/main.py` — the MCP server.  Beneficiaries and
  payments live in in-process dictionaries (`beneficiaries_db`,
  `payments_db`); accounts live in a MySQL table that the payment tools
  never touch.  Its `initiate_payment` takes no source account, performs
  no validation, no funds check and no debit, and records the payment
  with status `PENDING`.  Embedded below in namespace `Mcp`.

* `src/openbanking-mcp/lambda working copy.py` — the Lambda variant.
  Its `initiate_payment` validates the request (pydantic: amount > 0,
  currency matching `^[A-Z]{3}$`), verifies the beneficiary, verifies the
  source account, checks funds, and then runs a debit + insert pair
  through `db.execute_transaction`.  Embedded below in namespace `Lwc`.

Money is modelled as `ℚ` (the database columns are `DECIMAL(15,2)`, so
balance arithmetic is exact), timestamps as ISO-format strings compared
lexicographically (exactly how `main.py` stores and sorts them).

The file is organised as: all definitions (the embedding plus concrete
fixture states), then all theorems.
-/

/-- A currency code accepted by the Lambda variant's pydantic pattern
`^[A-Z]{3}$`: exactly three characters, all uppercase ASCII letters. -/
def currencyOk (s : String) : Bool :=
  s.length == 3 && s.data.all (fun c => 'A' ≤ c && c ≤ 'Z')

/-- Case-insensitive lowering of a character list (Python `str.lower` on
the ASCII names used here). -/
def lowerChars (l : List Char) : List Char :=
  l.map Char.toLower

/-- `chLeads n h` decides whether `h` starts with `n`. -/
def chLeads : List Char → List Char → Bool
  | [], _ => true
  | _ :: _, [] => false
  | a :: as, b :: bs => a == b && chLeads as bs

/-- `chSubstr n h` decides whether `n` occurs as a contiguous substring
of `h` (Python's `in` operator on strings). -/
def chSubstr (n : List Char) : List Char → Bool
  | [] => n.isEmpty
  | b :: bs => chLeads n (b :: bs) || chSubstr n bs

/-- Python `str.lower`, structurally recursive on the character list
(ASCII, which covers every string the embedding compares). -/
def lowerStr (s : String) : String :=
  ⟨lowerChars s.data⟩

/-- Lexicographic comparison of character lists by code point: the
order Python uses to compare strings. -/
def chLe : List Char → List Char → Bool
  | [], _ => true
  | _ :: _, [] => false
  | x :: xs, y :: ys =>
    if x < y then true else if y < x then false else chLe xs ys

/-- Python string comparison `a <= b`. -/
def strLe (a b : String) : Bool :=
  chLe a.data b.data

/-- Comparison of amounts, `a <= b`. -/
def ratLe (a b : ℚ) : Bool :=
  decide (a ≤ b)

/-- Python `needle.lower() in hay.lower()`. -/
def containsCI (needle hay : String) : Bool :=
  chSubstr (lowerChars needle.data) (lowerChars hay.data)

/-- An account row (`accounts` table: `account_id`, `account_type`,
`balance DECIMAL(15,2)`, `currency`, `created_at`). -/
structure Account where
  account_id : String
  account_type : String
  balance : ℚ
  currency : String
  created_at : String
deriving Repr, DecidableEq

/-- A beneficiary row / `beneficiaries_db` entry. -/
structure Beneficiary where
  beneficiary_id : String
  name : String
  account_number : String
  bank_code : String
deriving Repr, DecidableEq

namespace Mcp

/-- A `payments_db` entry of `main.py`: the dict built by
`initiate_payment` / `schedule_payment`.  Immediate payments carry no
`scheduled_date` key, modelled as `none`; `status` and `type` are the
uppercase string constants used by `main.py`. -/
structure Payment where
  payment_id : String
  amount : ℚ
  currency : String
  beneficiary_id : String
  status : String
  type : String
  scheduled_date : Option String
  created_at : String
  completed_at : Option String
deriving Repr, DecidableEq

/-- The whole mutable state of `main.py`: the `accounts` MySQL table and
the two in-process dictionaries (modelled as insertion-ordered lists,
which is how Python dicts iterate). -/
structure State where
  accounts : List Account
  beneficiaries : List Beneficiary
  payments : List Payment
deriving Repr, DecidableEq

/-- Result of a payment tool in `main.py`: either the payment dict or an
error dict `{"status": "error", "message": ...}`. -/
inductive PayResult where
  | ok (p : Payment)
  | err (message : String)
deriving Repr, DecidableEq

/-- Result of `cancel_payment`. -/
inductive CancelResult where
  | ok (payment_id : String)
  | err (message : String)
deriving Repr, DecidableEq

/-- Python dict assignment `payments_db[payment_id] = payment`: replaces
in place if the key exists, otherwise appends. -/
def dictInsert (p : Payment) (l : List Payment) : List Payment :=
  if l.any (fun q => q.payment_id == p.payment_id) then
    l.map (fun q => if q.payment_id == p.payment_id then p else q)
  else
    l ++ [p]

/-- `beneficiary_id in beneficiaries_db`. -/
def benMem (bid : String) (s : State) : Bool :=
  s.beneficiaries.any (fun b => b.beneficiary_id == bid)

/-- The payment dict built by `main.py` `initiate_payment`. -/
def immPayment (amount : ℚ) (currency beneficiary_id pid now : String) :
    Payment :=
  { payment_id := pid, amount := amount, currency := currency,
    beneficiary_id := beneficiary_id, status := "PENDING",
    type := "IMMEDIATE", scheduled_date := none,
    created_at := now, completed_at := none }

/-- The payment dict built by `main.py` `schedule_payment`. -/
def schedPayment (amount : ℚ) (currency beneficiary_id : String)
    (scheduled_date : String) (pid now : String) : Payment :=
  { payment_id := pid, amount := amount, currency := currency,
    beneficiary_id := beneficiary_id, status := "SCHEDULED",
    type := "SCHEDULED", scheduled_date := some scheduled_date,
    created_at := now, completed_at := none }

/-- `main.py` `initiate_payment(amount, currency, beneficiary_id)`.
The fresh UUID and `datetime.now()` are passed in as `pid` and `now`. -/
def initiate_payment (amount : ℚ) (currency beneficiary_id : String)
    (pid now : String) (s : State) : PayResult × State :=
  if !benMem beneficiary_id s then
    (.err "Beneficiary not found", s)
  else
    let payment := immPayment amount currency beneficiary_id pid now
    (.ok payment, { s with payments := dictInsert payment s.payments })

/-- `main.py` `schedule_payment(amount, currency, beneficiary_id,
scheduled_date)`. -/
def schedule_payment (amount : ℚ) (currency beneficiary_id : String)
    (scheduled_date : String) (pid now : String) (s : State) :
    PayResult × State :=
  if !benMem beneficiary_id s then
    (.err "Beneficiary not found", s)
  else
    let payment :=
      schedPayment amount currency beneficiary_id scheduled_date pid now
    (.ok payment, { s with payments := dictInsert payment s.payments })

/-- The in-place mutation `payment["status"] = "CANCELLED"` seen through
the payments dictionary. -/
def cancelUpdate (payment_id : String) (l : List Payment) : List Payment :=
  l.map (fun q =>
    if q.payment_id == payment_id then { q with status := "CANCELLED" }
    else q)

/-- `main.py` `cancel_payment(payment_id)`. -/
def cancel_payment (payment_id : String) (s : State) :
    CancelResult × State :=
  match s.payments.find? (fun p => p.payment_id == payment_id) with
  | none => (.err "Payment not found", s)
  | some p =>
    if p.status != "SCHEDULED" then
      (.err "Only scheduled payments can be cancelled", s)
    else
      (.ok payment_id,
       { s with payments := cancelUpdate payment_id s.payments })

/-- `main.py` `search_beneficiaries(name, bank_code)`.  Note the Python
truthiness tests `if name:` / `if bank_code:`: a provided but empty
string skips the corresponding filter. -/
def search_beneficiaries (name bank_code : Option String) (s : State) :
    List Beneficiary × State :=
  let results := s.beneficiaries
  let results :=
    match name with
    | some n => if n == "" then results
                else results.filter (fun b => containsCI n b.name)
    | none => results
  let results :=
    match bank_code with
    | some c => if c == "" then results
                else results.filter (fun b => b.bank_code == c)
    | none => results
  (results, s)

/-- One conditional filter step: applied only when the option is
provided. -/
def optFilter {β : Type} (o : Option β) (f : β → Payment → Bool)
    (ps : List Payment) : List Payment :=
  match o with
  | some v => ps.filter (f v)
  | none => ps

/-- The predicate an element must satisfy to survive `optFilter`. -/
def optPred {β : Type} (o : Option β) (f : β → Payment → Bool)
    (p : Payment) : Bool :=
  match o with
  | some v => f v p
  | none => true

/-- Python truthiness on an optional string argument (`if currency:`
etc.): a provided empty string behaves like an absent argument. -/
def strProvided (o : Option String) : Option String :=
  match o with
  | some c => if c == "" then none else some c
  | none => none

/-- Arguments of `search_payment_history`, after the defaults
`sort_by="created_at"`, `sort_order="desc"` are applied. -/
structure SearchArgs where
  start_date : Option String
  end_date : Option String
  min_amount : Option ℚ
  max_amount : Option ℚ
  currency : Option String
  status : Option String
  payment_type : Option String
  beneficiary_id : Option String
  sort_by : String
  sort_order : String
  limit : Option Nat
deriving Repr, DecidableEq

/-- The filter chain of `search_payment_history`, in source order. -/
def filterPayments (a : SearchArgs) (ps : List Payment) : List Payment :=
  optFilter (strProvided a.beneficiary_id) (fun v p => p.beneficiary_id == v)
    (optFilter (strProvided a.payment_type) (fun v p => p.type == v)
      (optFilter (strProvided a.status) (fun v p => p.status == v)
        (optFilter (strProvided a.currency) (fun v p => p.currency == v)
          (optFilter a.max_amount (fun v p => decide (p.amount ≤ v))
            (optFilter a.min_amount (fun v p => decide (v ≤ p.amount))
              (optFilter a.end_date (fun v p => decide (p.created_at ≤ v))
                (optFilter a.start_date (fun v p => decide (v ≤ p.created_at))
                  ps)))))))

/-- The conjunction of all provided filter predicates (AND semantics). -/
def matchesFilters (a : SearchArgs) (p : Payment) : Bool :=
  optPred a.start_date (fun v p => decide (v ≤ p.created_at)) p &&
  optPred a.end_date (fun v p => decide (p.created_at ≤ v)) p &&
  optPred a.min_amount (fun v p => decide (v ≤ p.amount)) p &&
  optPred a.max_amount (fun v p => decide (p.amount ≤ v)) p &&
  optPred (strProvided a.currency) (fun v p => p.currency == v) p &&
  optPred (strProvided a.status) (fun v p => p.status == v) p &&
  optPred (strProvided a.payment_type) (fun v p => p.type == v) p &&
  optPred (strProvided a.beneficiary_id) (fun v p => p.beneficiary_id == v) p

/-- The ordering a stable sort by key `key` realises under comparison
`le`: ascending on the key, or descending when `rev` is set
(`reverse=True`). -/
def keyRel {β : Type} (rev : Bool) (le : β → β → Bool)
    (key : Payment → β) (p q : Payment) : Prop :=
  (if rev then le (key q) (key p) else le (key p) (key q)) = true

instance keyRelDecidable {β : Type} (rev : Bool) (le : β → β → Bool)
    (key : Payment → β) : DecidableRel (keyRel rev le key) := fun p q => by
  unfold keyRel
  exact inferInstance

/-- The sort key used when `sort_by == "scheduled_date"`:
`x.get("scheduled_date", "")`. -/
def schedKey (p : Payment) : String :=
  p.scheduled_date.getD ""

/-- The sorting step of `search_payment_history`: Python's stable
`list.sort` (modelled by `List.insertionSort`, which is stable) keyed by
the recognised `sort_by` values; any other `sort_by` leaves the list
unsorted.  `reverse` is `sort_order.lower() == "desc"`. -/
def sortPayments (sort_by sort_order : String) (ps : List Payment) :
    List Payment :=
  let rev := lowerStr sort_order == "desc"
  if sort_by == "created_at" then
    ps.insertionSort (keyRel rev strLe (fun p => p.created_at))
  else if sort_by == "amount" then
    ps.insertionSort (keyRel rev ratLe (fun p => p.amount))
  else if sort_by == "scheduled_date" then
    ps.insertionSort (keyRel rev strLe schedKey)
  else ps

/-- `main.py` `search_payment_history`: filter, sort, limit. -/
def search_payment_history (a : SearchArgs) (s : State) :
    List Payment × State :=
  let ps := filterPayments a s.payments
  let ps := sortPayments a.sort_by a.sort_order ps
  (match a.limit with
   | some l => ps.take l
   | none => ps, s)

end Mcp

namespace Lwc

/-- `PaymentStatus` enum of the Lambda variant. -/
inductive PaymentStatus where
  | pending | completed | failed | cancelled | scheduled
deriving Repr, DecidableEq

/-- `PaymentType` enum of the Lambda variant. -/
inductive PaymentType where
  | transfer | bill_payment | wire_transfer | ach | card_payment
deriving Repr, DecidableEq

/-- The `Payment` pydantic model / `payments` table row of the Lambda
variant. -/
structure Payment where
  payment_id : String
  amount : ℚ
  currency : String
  beneficiary_id : String
  source_account_id : String
  status : PaymentStatus
  type : PaymentType
  scheduled_date : Option String
  created_at : String
  completed_at : Option String
deriving Repr, DecidableEq

/-- State of the Lambda variant: the three MySQL tables. -/
structure State where
  accounts : List Account
  beneficiaries : List Beneficiary
  payments : List Payment
deriving Repr, DecidableEq

/-- A `PaymentRequest` after pydantic field parsing and UUID generation:
`payment_id` is the (possibly freshly generated) id and `created_at` the
resolved creation timestamp. -/
structure PaymentRequest where
  payment_id : String
  amount : ℚ
  currency : String
  beneficiary_id : String
  source_account_id : String
  type : PaymentType
  scheduled_date : Option String
  created_at : String
deriving Repr, DecidableEq

/-- The pydantic validation on `PaymentRequest`: `amount` has `gt=0` and
`currency` must match `^[A-Z]{3}$`. -/
def requestValid (req : PaymentRequest) : Bool :=
  decide (0 < req.amount) && currencyOk req.currency

/-- Errors raised by `initiate_payment` (each is a `ValueError` carrying
the shown data in its message). -/
inductive PayError where
  | validationError
  | beneficiaryNotFound (beneficiary_id : String)
  | accountNotFound (account_id : String)
  | insufficientFunds (balance required : ℚ)
  | transactionFailed
deriving Repr, DecidableEq

/-- Effect of `UPDATE accounts SET balance = balance - %s WHERE
account_id = %s` on the accounts table. -/
def debitAccounts (accounts : List Account) (amount : ℚ)
    (account_id : String) : List Account :=
  accounts.map (fun a =>
    if a.account_id == account_id then
      { a with balance := a.balance - amount }
    else a)

/-- The two SQL statements `initiate_payment` submits as one
transaction: the balance debit `UPDATE` and the payment `INSERT`. -/
inductive TxQuery where
  | debitAccount (amount : ℚ) (account_id : String)
  | insertPayment (p : Payment)
deriving Repr, DecidableEq

/-- Effect of one statement on the state, with its affected-row count:
the `UPDATE` touches every row matching the id (and succeeds even when
none does); the `INSERT` affects one row, or fails on a duplicate
primary key.  `none` models a statement error. -/
def applyQuery : TxQuery → State → Option (Nat × State)
  | .debitAccount amount account_id, s =>
    some ((s.accounts.filter (fun a => a.account_id == account_id)).length,
      { s with accounts := debitAccounts s.accounts amount account_id })
  | .insertPayment p, s =>
    if s.payments.any (fun q => q.payment_id == p.payment_id) then none
    else some (1, { s with payments := s.payments ++ [p] })

/-- Per-transaction result as consumed by the caller:
`result['transaction_success']` and `result['results'][i]['affected_rows']`. -/
structure TxResult where
  transaction_success : Bool
  affected_rows : List Nat
deriving Repr, DecidableEq

/-- Modelled from the spec: `Database.execute_transaction` is called by
`initiate_payment` but is absent from `src/openbanking-mcp/database.py`
(which only has `execute_query` and `execute_update`).  Per spec §4.2
step 5 and §5 it runs the given statements inside one transaction:
each statement is applied in order, and if any statement fails the whole
transaction is rolled back to the pre-transaction state; on success it
reports the affected-row count of every statement. -/
def execTxGo (orig : State) : List TxQuery → State → List Nat →
    TxResult × State
  | [], cur, acc => (⟨true, acc.reverse⟩, cur)
  | q :: rest, cur, acc =>
    match applyQuery q cur with
    | some (n, cur') => execTxGo orig rest cur' (n :: acc)
    | none => (⟨false, []⟩, orig)

/-- Modelled from the spec: see `execTxGo`. -/
def execute_transaction (qs : List TxQuery) (s : State) :
    TxResult × State :=
  execTxGo s qs s []

/-- Lines 354–376 of `lambda working copy.py`: the caller's handling of
the transaction result.  When `transaction_success` is true it only
*logs a warning* if an affected-row count differs from 1, and still
returns the payment; only `transaction_success = false` raises. -/
def handleTxResult (payment : Payment) (res : TxResult) :
    Except PayError Payment :=
  if res.transaction_success then .ok payment
  else .error .transactionFailed

/-- The payment record built at step 4 of `initiate_payment` (lines
296–309): status `COMPLETED`, `completed_at = now`. -/
def mkPayment (req : PaymentRequest) (now : String) : Payment :=
  { payment_id := req.payment_id, amount := req.amount,
    currency := req.currency, beneficiary_id := req.beneficiary_id,
    source_account_id := req.source_account_id,
    status := .completed, type := req.type,
    scheduled_date := req.scheduled_date,
    created_at := req.created_at, completed_at := some now }

/-- The Lambda variant's `initiate_payment`.  `now` stands for the
`datetime.now()` used for `completed_at`.  Note line 334 of the source:
the `INSERT` always stores `NULL` for `scheduled_date`, while the
returned object keeps `request.scheduled_date`. -/
def initiate_payment (req : PaymentRequest) (now : String) (s : State) :
    Except PayError Payment × State :=
  if !requestValid req then (.error .validationError, s)
  else
    match s.beneficiaries.find? (fun b => b.beneficiary_id == req.beneficiary_id) with
    | none => (.error (.beneficiaryNotFound req.beneficiary_id), s)
    | some _ =>
      match s.accounts.find? (fun a => a.account_id == req.source_account_id) with
      | none => (.error (.accountNotFound req.source_account_id), s)
      | some source_account =>
        if source_account.balance < req.amount then
          (.error (.insufficientFunds source_account.balance req.amount), s)
        else
          let payment := mkPayment req now
          let tx := execute_transaction
            [.debitAccount req.amount req.source_account_id,
             .insertPayment { payment with scheduled_date := none }] s
          (handleTxResult payment tx.1, tx.2)

end Lwc

/-! ### Concrete fixtures used by witnesses and counterexamples -/

namespace Fix

/-- A stored beneficiary. -/
def ben1 : Beneficiary :=
  { beneficiary_id := "ben1", name := "Alice Smith",
    account_number := "111222", bank_code := "B1" }

/-- A stored beneficiary whose bank code is the empty string. -/
def ben0 : Beneficiary :=
  { beneficiary_id := "ben0", name := "Bob Jones",
    account_number := "333444", bank_code := "" }

/-- An account with balance 100 USD. -/
def acc100 : Account :=
  { account_id := "acc1", account_type := "CHECKING", balance := 100,
    currency := "USD", created_at := "2024-01-01T00:00:00" }

/-- The same account with balance 50. -/
def acc50 : Account :=
  { account_id := "acc1", account_type := "CHECKING", balance := 50,
    currency := "USD", created_at := "2024-01-01T00:00:00" }

/-- Lambda-variant state: one funded account, one beneficiary. -/
def lwcFull : Lwc.State :=
  { accounts := [acc100], beneficiaries := [ben1], payments := [] }

/-- Lambda-variant state with a low balance. -/
def lwcLow : Lwc.State :=
  { accounts := [acc50], beneficiaries := [ben1], payments := [] }

/-- Lambda-variant state with an account but no beneficiaries. -/
def lwcNoBen : Lwc.State :=
  { accounts := [acc50], beneficiaries := [], payments := [] }

/-- A well-formed payment request for 60 USD from `acc1` to `ben1`. -/
def req60 : Lwc.PaymentRequest :=
  { payment_id := "pay1", amount := 60, currency := "USD",
    beneficiary_id := "ben1", source_account_id := "acc1",
    type := .transfer, scheduled_date := none,
    created_at := "2024-01-02T00:00:00" }

/-- A request that fails pydantic validation: non-positive amount and a
malformed currency code. -/
def reqBad : Lwc.PaymentRequest :=
  { payment_id := "pay1", amount := -5, currency := "usd",
    beneficiary_id := "ben1", source_account_id := "acc1",
    type := .transfer, scheduled_date := none,
    created_at := "2024-01-02T00:00:00" }

/-- MCP-variant state: one funded account, one beneficiary, no
payments. -/
def mcpBen : Mcp.State :=
  { accounts := [acc100], beneficiaries := [ben1], payments := [] }

/-- A SCHEDULED payment as stored by `main.py` `schedule_payment`. -/
def pSched : Mcp.Payment :=
  Mcp.schedPayment 50 "USD" "ben1" "2030-01-01T00:00:00" "pay2"
    "2024-01-02T00:00:00"

/-- MCP-variant state holding one SCHEDULED payment. -/
def mcpSched : Mcp.State :=
  { accounts := [acc100], beneficiaries := [ben1], payments := [pSched] }

/-- A PENDING immediate payment in USD as stored by `main.py`. -/
def pUSD : Mcp.Payment :=
  Mcp.immPayment 10 "USD" "ben1" "pp1" "2024-01-03T00:00:00"

/-- A second immediate payment, created later, with a larger amount. -/
def pUSD2 : Mcp.Payment :=
  Mcp.immPayment 25 "USD" "ben1" "pp2" "2024-01-04T00:00:00"

/-- MCP-variant state holding the two USD payments. -/
def mcpPay : Mcp.State :=
  { accounts := [], beneficiaries := [], payments := [pUSD, pUSD2] }

/-- `search_payment_history` call with `currency=""` provided and all
other filters absent (defaults `sort_by="created_at"`,
`sort_order="desc"`, no limit). -/
def argsEmptyCurrency : Mcp.SearchArgs :=
  { start_date := none, end_date := none, min_amount := none,
    max_amount := none, currency := some "", status := none,
    payment_type := none, beneficiary_id := none,
    sort_by := "created_at", sort_order := "desc", limit := none }

/-- `search_payment_history` call with every filter absent and the
default sort. -/
def argsDefault : Mcp.SearchArgs :=
  { start_date := none, end_date := none, min_amount := none,
    max_amount := none, currency := none, status := none,
    payment_type := none, beneficiary_id := none,
    sort_by := "created_at", sort_order := "desc", limit := none }

/-- MCP-variant state with two beneficiaries, one with an empty bank
code. -/
def mcpBens : Mcp.State :=
  { accounts := [], beneficiaries := [ben0, ben1], payments := [] }

end Fix

/-! ### Helper lemmas -/

/-- The empty needle occurs in every haystack. -/
theorem chSubstr_nil (h : List Char) : chSubstr [] h = true := by
  cases h with
  | nil => rfl
  | cons b bs => simp [chSubstr, chLeads]

theorem containsCI_empty (hay : String) : containsCI "" hay = true := by
  simpa [containsCI, lowerChars] using chSubstr_nil (lowerChars hay.data)

theorem mem_optFilter {β : Type} (o : Option β)
    (f : β → Mcp.Payment → Bool) (ps : List Mcp.Payment)
    (p : Mcp.Payment) :
    p ∈ Mcp.optFilter o f ps ↔ p ∈ ps ∧ Mcp.optPred o f p = true := by
  cases o with
  | none => simp [Mcp.optFilter, Mcp.optPred]
  | some v => simp [Mcp.optFilter, Mcp.optPred, List.mem_filter]

theorem mem_filterPayments (a : Mcp.SearchArgs) (ps : List Mcp.Payment)
    (p : Mcp.Payment) :
    p ∈ Mcp.filterPayments a ps ↔
      p ∈ ps ∧ Mcp.matchesFilters a p = true := by
  simp only [Mcp.filterPayments, Mcp.matchesFilters, mem_optFilter,
    Bool.and_eq_true, and_assoc]

theorem chLe_refl (a : List Char) : chLe a a = true := by
  induction a with
  | nil => rfl
  | cons x xs ih => simp [chLe, lt_irrefl, ih]

theorem chLe_total (a b : List Char) :
    chLe a b = true ∨ chLe b a = true := by
  induction a generalizing b with
  | nil => exact Or.inl rfl
  | cons x xs ih =>
    cases b with
    | nil => exact Or.inr rfl
    | cons y ys =>
      rcases lt_trichotomy x y with h | h | h
      · exact Or.inl (by simp [chLe, h])
      · subst h
        rcases ih ys with h' | h'
        · exact Or.inl (by simp [chLe, lt_irrefl, h'])
        · exact Or.inr (by simp [chLe, lt_irrefl, h'])
      · exact Or.inr (by simp [chLe, h])

theorem chLe_trans (a b c : List Char) (hab : chLe a b = true)
    (hbc : chLe b c = true) : chLe a c = true := by
  induction a generalizing b c with
  | nil => rfl
  | cons x xs ih =>
    cases b with
    | nil => simp [chLe] at hab
    | cons y ys =>
      cases c with
      | nil => simp [chLe] at hbc
      | cons z zs =>
        by_cases hxy : x < y
        · by_cases hyz : y < z
          · simp [chLe, lt_trans hxy hyz]
          · by_cases hzy : z < y
            · simp [chLe, hyz, hzy] at hbc
            · have : y = z := le_antisymm (not_lt.mp hzy) (not_lt.mp hyz)
              subst this
              simp [chLe, hxy]
        · by_cases hyx : y < x
          · simp [chLe, hxy, hyx] at hab
          · have hx : x = y := le_antisymm (not_lt.mp hyx) (not_lt.mp hxy)
            subst hx
            simp only [chLe, lt_irrefl, if_false] at hab
            by_cases hyz : x < z
            · simp [chLe, hyz]
            · by_cases hzy : z < x
              · simp [chLe, hyz, hzy] at hbc
              · have : x = z := le_antisymm (not_lt.mp hzy) (not_lt.mp hyz)
                subst this
                simp only [chLe, lt_irrefl, if_false] at hbc ⊢
                exact ih ys zs hab hbc

theorem strLe_refl (a : String) : strLe a a = true :=
  chLe_refl a.data

theorem strLe_total (a b : String) :
    strLe a b = true ∨ strLe b a = true :=
  chLe_total a.data b.data

theorem strLe_trans (a b c : String) (hab : strLe a b = true)
    (hbc : strLe b c = true) : strLe a c = true :=
  chLe_trans a.data b.data c.data hab hbc

theorem ratLe_refl (a : ℚ) : ratLe a a = true := by
  simp [ratLe]

theorem ratLe_total (a b : ℚ) :
    ratLe a b = true ∨ ratLe b a = true := by
  simpa [ratLe] using le_total a b

theorem ratLe_trans (a b c : ℚ) (hab : ratLe a b = true)
    (hbc : ratLe b c = true) : ratLe a c = true := by
  simp [ratLe] at hab hbc ⊢
  exact le_trans hab hbc

theorem keyRel_total {β : Type} (rev : Bool) (le : β → β → Bool)
    (key : Mcp.Payment → β)
    (htot : ∀ u v, le u v = true ∨ le v u = true) (p q : Mcp.Payment) :
    Mcp.keyRel rev le key p q ∨ Mcp.keyRel rev le key q p := by
  unfold Mcp.keyRel
  cases rev
  · simpa using htot (key p) (key q)
  · simpa using htot (key q) (key p)

theorem keyRel_trans {β : Type} (rev : Bool) (le : β → β → Bool)
    (key : Mcp.Payment → β)
    (htr : ∀ u v w, le u v = true → le v w = true → le u w = true)
    (p q r : Mcp.Payment) :
    Mcp.keyRel rev le key p q → Mcp.keyRel rev le key q r →
      Mcp.keyRel rev le key p r := by
  unfold Mcp.keyRel
  cases rev
  · simpa using htr (key p) (key q) (key r)
  · intro h h'
    simp only [if_true] at *
    exact htr (key r) (key q) (key p) h' h

theorem keyRel_of_key_eq {β : Type} (rev : Bool) (le : β → β → Bool)
    (key : Mcp.Payment → β) (hrefl : ∀ u, le u u = true)
    (p q : Mcp.Payment) (h : key p = key q) :
    Mcp.keyRel rev le key p q := by
  unfold Mcp.keyRel
  cases rev <;> simp [h, hrefl]

theorem mem_sortPayments (sort_by sort_order : String)
    (ps : List Mcp.Payment) (p : Mcp.Payment) :
    p ∈ Mcp.sortPayments sort_by sort_order ps ↔ p ∈ ps := by
  unfold Mcp.sortPayments
  split_ifs <;> simp [List.mem_insertionSort]

/-- Inserting an element that satisfies `p` while every `p`-element ties
with it under `r` puts it at the head of the `p`-filtered list. -/
theorem filter_orderedInsert_pos {α : Type} (r : α → α → Prop)
    [DecidableRel r] (p : α → Bool) (x : α) (l : List α)
    (hx : p x = true) (H : ∀ b, p b = true → r x b) :
    (List.orderedInsert r x l).filter p = x :: l.filter p := by
  induction l with
  | nil => simp [List.orderedInsert, hx]
  | cons b t ih =>
    by_cases hr : r x b
    · simp [List.orderedInsert, hr, List.filter_cons, hx]
    · have hb : p b = false := by
        cases hpb : p b
        · rfl
        · exact absurd (H b hpb) hr
      simp [List.orderedInsert, hr, List.filter_cons, hb, ih]

/-- Inserting an element that fails `p` leaves the `p`-filtered list
unchanged. -/
theorem filter_orderedInsert_neg {α : Type} (r : α → α → Prop)
    [DecidableRel r] (p : α → Bool) (x : α) (l : List α)
    (hx : p x = false) :
    (List.orderedInsert r x l).filter p = l.filter p := by
  induction l with
  | nil => simp [List.orderedInsert, hx]
  | cons b t ih =>
    by_cases hr : r x b
    · simp [List.orderedInsert, hr, List.filter_cons, hx]
    · simp [List.orderedInsert, hr, List.filter_cons, ih]

/-- Stability of insertion sort: sorting does not reorder the elements
of any class on which `r` always holds (in particular a class of equal
sort keys). -/
theorem filter_insertionSort {α : Type} (r : α → α → Prop)
    [DecidableRel r] (p : α → Bool)
    (H : ∀ a b, p a = true → p b = true → r a b) (l : List α) :
    (l.insertionSort r).filter p = l.filter p := by
  induction l with
  | nil => rfl
  | cons a t ih =>
    rw [List.insertionSort]
    cases hpa : p a
    · rw [filter_orderedInsert_neg r p a _ hpa, ih, List.filter_cons, hpa]
      simp
    · rw [filter_orderedInsert_pos r p a _ hpa
        (fun b hb => H a b hpa hb), ih, List.filter_cons, hpa]
      simp

theorem find?_cancelUpdate (pid : String) (l : List Mcp.Payment) :
    (Mcp.cancelUpdate pid l).find? (fun q => q.payment_id == pid) =
      (l.find? (fun q => q.payment_id == pid)).map
        (fun q => { q with status := "CANCELLED" }) := by
  unfold Mcp.cancelUpdate
  rw [List.find?_map]
  have hpf : ((fun q : Mcp.Payment => q.payment_id == pid) ∘
      (fun q : Mcp.Payment =>
        if q.payment_id == pid then { q with status := "CANCELLED" }
        else q)) = fun q : Mcp.Payment => q.payment_id == pid := by
    funext q
    by_cases h : q.payment_id = pid <;> simp [h]
  rw [hpf]
  cases hf : l.find? (fun q => q.payment_id == pid) with
  | none => rfl
  | some q =>
    have hq := List.find?_some hf
    simp at hq
    simp [hq]

theorem cancelUpdate_fresh (pid : String) (l : List Mcp.Payment)
    (h : ∀ q ∈ l, (q.payment_id == pid) = false) :
    Mcp.cancelUpdate pid l = l := by
  induction l with
  | nil => rfl
  | cons q t ih =>
    unfold Mcp.cancelUpdate
    simp only [List.map_cons, h q (List.mem_cons_self q t),
      Bool.false_eq_true, if_false, List.cons.injEq, true_and]
    exact ih (fun q hq => h q (List.mem_cons_of_mem _ hq))

theorem dictInsert_fresh (p : Mcp.Payment) (l : List Mcp.Payment)
    (h : ∀ q ∈ l, (q.payment_id == p.payment_id) = false) :
    Mcp.dictInsert p l = l ++ [p] := by
  unfold Mcp.dictInsert
  have hany : l.any (fun q => q.payment_id == p.payment_id) = false := by
    rw [List.any_eq_false]
    intro q hq
    simp [h q hq]
  simp [hany]

theorem find?_debitAccounts (l : List Account) (amt : ℚ) (aid : String) :
    (Lwc.debitAccounts l amt aid).find? (fun a => a.account_id == aid) =
      (l.find? (fun a => a.account_id == aid)).map
        (fun a => { a with balance := a.balance - amt }) := by
  unfold Lwc.debitAccounts
  rw [List.find?_map]
  have hpf : ((fun a : Account => a.account_id == aid) ∘
      (fun a : Account =>
        if a.account_id == aid then { a with balance := a.balance - amt }
        else a)) = fun a : Account => a.account_id == aid := by
    funext a
    by_cases h : a.account_id = aid <;> simp [h]
  rw [hpf]
  cases hf : l.find? (fun a => a.account_id == aid) with
  | none => rfl
  | some a =>
    have ha := List.find?_some hf
    simp at ha
    simp [ha]

/-- Exhaustive outcome analysis of the Lambda `initiate_payment`: either
it fails and the state is untouched, or it returns the COMPLETED payment
and the state carries exactly the debit and the inserted row. -/
theorem initiate_payment_cases (req : Lwc.PaymentRequest) (now : String)
    (s : Lwc.State) :
    (∃ e, Lwc.initiate_payment req now s = (.error e, s)) ∨
    Lwc.initiate_payment req now s =
      (.ok (Lwc.mkPayment req now),
       { s with
         accounts :=
           Lwc.debitAccounts s.accounts req.amount req.source_account_id,
         payments :=
           s.payments ++
             [{ Lwc.mkPayment req now with scheduled_date := none }] }) := by
  unfold Lwc.initiate_payment
  split
  · exact Or.inl ⟨_, rfl⟩
  · split
    · exact Or.inl ⟨_, rfl⟩
    · split
      · exact Or.inl ⟨_, rfl⟩
      · split
        · exact Or.inl ⟨_, rfl⟩
        · simp only [Lwc.execute_transaction, Lwc.execTxGo, Lwc.applyQuery,
            Lwc.handleTxResult]
          by_cases hdup :
              s.payments.any (fun q =>
                q.payment_id ==
                  (Lwc.mkPayment req now).payment_id) = true
          · simp [hdup]
          · simp [hdup]

/-! ### Claims -/

/-- Claim C1, counterexample: a request whose source account exists and
whose amount (60) exceeds the balance (50) but whose beneficiary is not
stored fails with a beneficiary-not-found error, not with the claimed
insufficient-funds error. -/
theorem c1_counterexample :
    Fix.lwcNoBen.accounts.find?
        (fun a => a.account_id == Fix.req60.source_account_id) =
      some Fix.acc50 ∧
    Fix.acc50.balance < Fix.req60.amount ∧
    Lwc.initiate_payment Fix.req60 "2024-01-02T00:00:01" Fix.lwcNoBen =
      (.error (.beneficiaryNotFound "ben1"), Fix.lwcNoBen) := by
  refine ⟨rfl, by norm_num [Fix.acc50, Fix.req60], rfl⟩

/-- Claim C1 (amended): an `initiate_payment` request that passes input
validation, whose beneficiary exists, whose source account exists and
whose amount exceeds that account's balance fails with the
insufficient-funds error reporting the current balance and the required
amount, and the state is exactly what it was before the call. -/
theorem c1_insufficient_funds (req : Lwc.PaymentRequest) (now : String)
    (s : Lwc.State) (acct : Account)
    (hval : Lwc.requestValid req = true)
    (hben : (s.beneficiaries.find?
        (fun b => b.beneficiary_id == req.beneficiary_id)).isSome = true)
    (hacct : s.accounts.find?
        (fun a => a.account_id == req.source_account_id) = some acct)
    (hbal : acct.balance < req.amount) :
    Lwc.initiate_payment req now s =
      (.error (.insufficientFunds acct.balance req.amount), s) := by
  obtain ⟨b, hb⟩ := Option.isSome_iff_exists.mp hben
  simp [Lwc.initiate_payment, hval, hb, hacct, hbal]

/-- Claim C1, witness: balance 50, amount 60 fails reporting both. -/
theorem c1_witness :
    Lwc.initiate_payment Fix.req60 "t" Fix.lwcLow =
      (.error (.insufficientFunds Fix.acc50.balance Fix.req60.amount),
       Fix.lwcLow) :=
  c1_insufficient_funds Fix.req60 "t" Fix.lwcLow Fix.acc50 (by decide)
    (by rfl) (by rfl) (by norm_num [Fix.acc50, Fix.req60])

/-- Claim C2: the Lambda `initiate_payment` commit is atomic — on any
error the state is exactly the pre-state, and on success the post-state
carries exactly the balance debit and the inserted payment row, so no
outcome debits without recording or records without debiting.
(`execute_transaction` is modelled from the spec; see `execTxGo`.) -/
theorem c2_initiate_payment_atomic (req : Lwc.PaymentRequest)
    (now : String) (s : Lwc.State) :
    (∀ e, (Lwc.initiate_payment req now s).1 = .error e →
        (Lwc.initiate_payment req now s).2 = s) ∧
    (∀ p, (Lwc.initiate_payment req now s).1 = .ok p →
        (Lwc.initiate_payment req now s).2 =
          { s with
            accounts := Lwc.debitAccounts s.accounts req.amount
              req.source_account_id,
            payments :=
              s.payments ++ [{ p with scheduled_date := none }] }) := by
  rcases initiate_payment_cases req now s with ⟨e, he⟩ | hok
  · constructor
    · intro e' _
      rw [he]
    · intro p hp
      rw [he] at hp
      simp at hp
  · constructor
    · intro e' h'
      rw [hok] at h'
      simp at h'
    · intro p hp
      rw [hok] at hp ⊢
      injection hp with hp
      subst hp
      rfl

/-- Claim C2, witness: a successful concrete payment produces exactly
the debited account table and the appended payment row. -/
theorem c2_witness :
    (Lwc.initiate_payment Fix.req60 "t" Fix.lwcFull).2 =
      { Fix.lwcFull with
        accounts := Lwc.debitAccounts Fix.lwcFull.accounts
          Fix.req60.amount Fix.req60.source_account_id,
        payments :=
          [{ Lwc.mkPayment Fix.req60 "t" with scheduled_date := none }] } := by
  have h := (c2_initiate_payment_atomic Fix.req60 "t" Fix.lwcFull).2
    (Lwc.mkPayment Fix.req60 "t") (by rfl)
  simpa using h

/-- Claim C3, counterexample: a call whose beneficiary is not stored but
whose amount is non-positive fails with a validation error, not with the
claimed beneficiary-not-found error. -/
theorem c3_counterexample :
    Fix.lwcNoBen.beneficiaries.find?
        (fun b => b.beneficiary_id == Fix.reqBad.beneficiary_id) = none ∧
    Lwc.initiate_payment Fix.reqBad "t" Fix.lwcNoBen =
      (.error .validationError, Fix.lwcNoBen) := by
  exact ⟨rfl, rfl⟩

/-- Claim C3 (amended): a `main.py` `initiate_payment` or
`schedule_payment` call with an unknown beneficiary fails with the
beneficiary-not-found error and leaves the state unchanged, and so does
a Lambda-variant `initiate_payment` call provided it passes input
validation (otherwise it fails earlier with a validation error, still
without writes). -/
theorem c3_beneficiary_not_found (amount : ℚ)
    (currency bid sd pid now : String) (s : Mcp.State)
    (req : Lwc.PaymentRequest) (now' : String) (t : Lwc.State) :
    (Mcp.benMem bid s = false →
      Mcp.initiate_payment amount currency bid pid now s =
        (.err "Beneficiary not found", s)) ∧
    (Mcp.benMem bid s = false →
      Mcp.schedule_payment amount currency bid sd pid now s =
        (.err "Beneficiary not found", s)) ∧
    (Lwc.requestValid req = true →
      t.beneficiaries.find?
          (fun b => b.beneficiary_id == req.beneficiary_id) = none →
      Lwc.initiate_payment req now' t =
        (.error (.beneficiaryNotFound req.beneficiary_id), t)) := by
  refine ⟨?_, ?_, ?_⟩
  · intro h
    simp [Mcp.initiate_payment, h]
  · intro h
    simp [Mcp.schedule_payment, h]
  · intro hv hb
    simp [Lwc.initiate_payment, hv, hb]

/-- Claim C3, witness: unknown beneficiary in a beneficiary-free store
fails with the beneficiary-not-found message and no state change. -/
theorem c3_witness :
    Mcp.initiate_payment 10 "USD" "ben1" "p9" "t" Fix.mcpPay =
      (.err "Beneficiary not found", Fix.mcpPay) :=
  (c3_beneficiary_not_found 10 "USD" "ben1" "sd" "p9" "t" Fix.mcpPay
    Fix.req60 "t" Fix.lwcNoBen).1 (by rfl)

/-- Claim C4, counterexample: in `main.py` a successful immediate
`initiate_payment` records the payment with status `PENDING` (not
`COMPLETED`), no `completed_at`, and changes no account balance even
though the amount is 60. -/
theorem c4_counterexample :
    Mcp.initiate_payment 60 "USD" "ben1" "pay1" "t" Fix.mcpBen =
      (.ok (Mcp.immPayment 60 "USD" "ben1" "pay1" "t"),
       { Fix.mcpBen with
         payments := [Mcp.immPayment 60 "USD" "ben1" "pay1" "t"] }) ∧
    (Mcp.immPayment 60 "USD" "ben1" "pay1" "t").status = "PENDING" ∧
    (Mcp.immPayment 60 "USD" "ben1" "pay1" "t").status ≠ "COMPLETED" ∧
    (Mcp.immPayment 60 "USD" "ben1" "pay1" "t").completed_at = none ∧
    ((Mcp.initiate_payment 60 "USD" "ben1" "pay1" "t" Fix.mcpBen).2).accounts
      = Fix.mcpBen.accounts := by
  refine ⟨rfl, rfl, by decide, rfl, rfl⟩

/-- Claim C4 (amended): in the Lambda variant, every successful
`initiate_payment` call returns and persists a payment with status
`COMPLETED` and `completed_at` set, and the source account's balance is
decreased by exactly the payment amount; the `main.py` variant instead
records status `PENDING` with no debit. -/
theorem c4_success_completed (req : Lwc.PaymentRequest) (now : String)
    (s : Lwc.State) (p : Lwc.Payment)
    (h : (Lwc.initiate_payment req now s).1 = .ok p) :
    p.status = .completed ∧ p.completed_at = some now ∧
    ((Lwc.initiate_payment req now s).2).payments =
      s.payments ++ [{ p with scheduled_date := none }] ∧
    ∀ acct, s.accounts.find?
        (fun a => a.account_id == req.source_account_id) = some acct →
      ((Lwc.initiate_payment req now s).2).accounts.find?
          (fun a => a.account_id == req.source_account_id) =
        some { acct with balance := acct.balance - req.amount } := by
  rcases initiate_payment_cases req now s with ⟨e, he⟩ | hok
  · rw [he] at h
    simp at h
  · rw [hok] at h
    injection h with h
    subst h
    refine ⟨rfl, rfl, by rw [hok], ?_⟩
    intro acct hacct
    rw [hok]
    show (Lwc.debitAccounts s.accounts req.amount
      req.source_account_id).find? _ = _
    rw [find?_debitAccounts, hacct]
    rfl

/-- Claim C4, witness: paying 60 from the 100-balance account leaves it
with the exactly debited balance. -/
theorem c4_witness :
    ((Lwc.initiate_payment Fix.req60 "t" Fix.lwcFull).2).accounts.find?
        (fun a => a.account_id == Fix.req60.source_account_id) =
      some { Fix.acc100 with
             balance := Fix.acc100.balance - Fix.req60.amount } := by
  have h := c4_success_completed Fix.req60 "t" Fix.lwcFull
    (Lwc.mkPayment Fix.req60 "t") (by rfl)
  exact h.2.2.2 Fix.acc100 (by rfl)

/-- Claim C5: the integrity check the spec requires is missing — when
the transaction reports success, the caller returns the COMPLETED
payment even if the debit affected 0 rows (it only logs a warning); no
`TransactionIntegrityError` exists in the code. -/
theorem c5_zero_row_write_reports_success :
    Lwc.handleTxResult (Lwc.mkPayment Fix.req60 "t")
      { transaction_success := true, affected_rows := [0, 1] } =
      .ok (Lwc.mkPayment Fix.req60 "t") := rfl

/-- Claim C6, counterexample: `main.py` performs no input validation —
a call with amount −5 and the malformed currency "banana" succeeds and
writes the payment into the store. -/
theorem c6_counterexample :
    Mcp.initiate_payment (-5) "banana" "ben1" "pay1" "t" Fix.mcpBen =
      (.ok (Mcp.immPayment (-5) "banana" "ben1" "pay1" "t"),
       { Fix.mcpBen with
         payments := [Mcp.immPayment (-5) "banana" "ben1" "pay1" "t"] }) ∧
    (-5 : ℚ) ≤ 0 ∧ currencyOk "banana" = false := by
  refine ⟨rfl, by norm_num, by decide⟩

/-- Claim C6 (amended): in the Lambda variant, an `initiate_payment`
call with a non-positive amount or a currency that does not match the
3-letter uppercase pattern fails with a validation error and performs no
writes; the `main.py` variant performs no validation at all. -/
theorem c6_validation (req : Lwc.PaymentRequest) (now : String)
    (s : Lwc.State)
    (h : req.amount ≤ 0 ∨ currencyOk req.currency = false) :
    Lwc.initiate_payment req now s = (.error .validationError, s) := by
  have hv : Lwc.requestValid req = false := by
    unfold Lwc.requestValid
    rcases h with h | h
    · simp [not_lt.mpr h]
    · simp [h]
  simp [Lwc.initiate_payment, hv]

/-- Claim C6, witness: the request with amount −5 fails validation and
leaves the state unchanged. -/
theorem c6_witness :
    Lwc.initiate_payment Fix.reqBad "t" Fix.lwcFull =
      (.error .validationError, Fix.lwcFull) :=
  c6_validation Fix.reqBad "t" Fix.lwcFull (Or.inl (by norm_num [Fix.reqBad]))

/-- Claim C7: `cancel_payment` succeeds exactly on stored SCHEDULED
payments, setting their status to CANCELLED; a missing id yields the
not-found error, any other status yields the invalid-transition error;
cancelling twice fails the second time; and no call touches the accounts
table. -/
theorem c7_cancel_payment_spec (pid : String) (s : Mcp.State) :
    ((Mcp.cancel_payment pid s).2).accounts = s.accounts ∧
    (s.payments.find? (fun p => p.payment_id == pid) = none →
       Mcp.cancel_payment pid s = (.err "Payment not found", s)) ∧
    (∀ p, s.payments.find? (fun p => p.payment_id == pid) = some p →
       p.status ≠ "SCHEDULED" →
       Mcp.cancel_payment pid s =
         (.err "Only scheduled payments can be cancelled", s)) ∧
    (∀ p, s.payments.find? (fun p => p.payment_id == pid) = some p →
       p.status = "SCHEDULED" →
       (Mcp.cancel_payment pid s).1 = .ok pid ∧
       ((Mcp.cancel_payment pid s).2).payments.find?
           (fun q => q.payment_id == pid) =
         some { p with status := "CANCELLED" } ∧
       Mcp.cancel_payment pid ((Mcp.cancel_payment pid s).2) =
         (.err "Only scheduled payments can be cancelled",
          (Mcp.cancel_payment pid s).2)) := by
  refine ⟨?_, ?_, ?_, ?_⟩
  · unfold Mcp.cancel_payment
    cases hf : s.payments.find? (fun p => p.payment_id == pid) with
    | none => rfl
    | some p =>
      by_cases hs : p.status != "SCHEDULED" <;> simp [hs]
  · intro h
    simp [Mcp.cancel_payment, h]
  · intro p hp hs
    have hbne : (p.status != "SCHEDULED") = true := by
      simp [bne_iff_ne, hs]
    simp [Mcp.cancel_payment, hp, hbne]
  · intro p hp hs
    have hbne : (p.status != "SCHEDULED") = false := by
      simp [hs]
    have hfind : (Mcp.cancelUpdate pid s.payments).find?
        (fun q => q.payment_id == pid) =
          some { p with status := "CANCELLED" } := by
      rw [find?_cancelUpdate, hp]
      rfl
    refine ⟨by simp [Mcp.cancel_payment, hp, hbne], ?_, ?_⟩
    · simp only [Mcp.cancel_payment, hp, hbne]
      simpa using hfind
    · simp only [Mcp.cancel_payment, hp, hbne]
      simp [hfind]

/-- Claim C7, witness: cancelling the stored SCHEDULED payment
succeeds. -/
theorem c7_witness :
    (Mcp.cancel_payment "pay2" Fix.mcpSched).1 = .ok "pay2" :=
  ((c7_cancel_payment_spec "pay2" Fix.mcpSched).2.2.2 Fix.pSched
    (by rfl) (by rfl)).1

/-- Claim C8: with an existing beneficiary and a fresh payment id,
`schedule_payment` persists exactly one payment, with status SCHEDULED
and `scheduled_date` set, without touching any account; the subsequent
`cancel_payment` flips exactly that payment to CANCELLED, still without
touching any account. -/
theorem c8_schedule_then_cancel (amount : ℚ)
    (currency bid d pid now : String) (s : Mcp.State)
    (hben : Mcp.benMem bid s = true)
    (hfresh : ∀ q ∈ s.payments, (q.payment_id == pid) = false) :
    Mcp.schedule_payment amount currency bid d pid now s =
      (.ok (Mcp.schedPayment amount currency bid d pid now),
       { s with payments :=
           s.payments ++ [Mcp.schedPayment amount currency bid d pid now] }) ∧
    (Mcp.schedPayment amount currency bid d pid now).status = "SCHEDULED" ∧
    (Mcp.schedPayment amount currency bid d pid now).scheduled_date =
      some d ∧
    Mcp.cancel_payment pid
        { s with payments :=
            s.payments ++ [Mcp.schedPayment amount currency bid d pid now] } =
      (.ok pid,
       { s with payments :=
           s.payments ++
             [{ Mcp.schedPayment amount currency bid d pid now with
                status := "CANCELLED" }] }) := by
  have hprefixNone : s.payments.find? (fun q => q.payment_id == pid) = none := by
    rw [List.find?_eq_none]
    intro q hq
    simp [hfresh q hq]
  have happend : (s.payments ++
        [Mcp.schedPayment amount currency bid d pid now]).find?
      (fun q => q.payment_id == pid) =
        some (Mcp.schedPayment amount currency bid d pid now) := by
    rw [List.find?_append, hprefixNone]
    simp [Mcp.schedPayment]
  refine ⟨?_, rfl, rfl, ?_⟩
  · unfold Mcp.schedule_payment
    rw [hben]
    simp only [Bool.not_true, Bool.false_eq_true, if_false]
    rw [dictInsert_fresh _ _ (fun q hq => hfresh q hq)]
  · have h1 : Mcp.cancelUpdate pid s.payments = s.payments :=
      cancelUpdate_fresh pid s.payments hfresh
    unfold Mcp.cancel_payment
    rw [happend]
    unfold Mcp.cancelUpdate
    unfold Mcp.cancelUpdate at h1
    rw [List.map_append, h1]
    simp [Mcp.schedPayment]

/-- Claim C8, witness: scheduling 50 USD to `ben1` persists the
SCHEDULED payment and leaves the accounts untouched. -/
theorem c8_witness :
    Mcp.schedule_payment 50 "USD" "ben1" "2030-01-01T00:00:00" "pay2"
        "now" Fix.mcpBen =
      (.ok (Mcp.schedPayment 50 "USD" "ben1" "2030-01-01T00:00:00" "pay2"
        "now"),
       { Fix.mcpBen with
         payments := [Mcp.schedPayment 50 "USD" "ben1"
           "2030-01-01T00:00:00" "pay2" "now"] }) := by
  have h := c8_schedule_then_cancel 50 "USD" "ben1" "2030-01-01T00:00:00"
    "pay2" "now" Fix.mcpBen (by rfl)
    (by intro q hq; simp [Fix.mcpBen] at hq)
  simpa using h.1

/-- Claim C9, counterexample: with `currency=""` provided, the
empty-string filter is skipped by the truthiness test, so payments whose
currency is not `""` are returned even though they fail the provided
currency predicate. -/
theorem c9_counterexample :
    Fix.argsEmptyCurrency.currency = some "" ∧
    (Mcp.search_payment_history Fix.argsEmptyCurrency Fix.mcpPay).1 =
      [Fix.pUSD2, Fix.pUSD] ∧
    Fix.pUSD.currency ≠ "" ∧ Fix.pUSD2.currency ≠ "" := by
  refine ⟨rfl, by decide, by decide, by decide⟩

/-- Claim C9 (amended): `search_payment_history` returns exactly the
stored payments satisfying all provided filter predicates conjunctively,
where a provided but empty string filter (currency, status, type,
beneficiary) is treated as absent and matches all rows; the result is
stably sorted by the given sort key (`created_at`, `amount` or
`scheduled_date`) in the given direction, and a provided limit returns
the first `limit` entries of that sorted order. -/
theorem c9_search_payment_history (a : Mcp.SearchArgs) (s : Mcp.State) :
    (∀ p, p ∈ (Mcp.search_payment_history { a with limit := none } s).1 ↔
        p ∈ s.payments ∧ Mcp.matchesFilters a p = true) ∧
    (∀ l, (Mcp.search_payment_history { a with limit := some l } s).1 =
        ((Mcp.search_payment_history { a with limit := none } s).1).take l) ∧
    (a.sort_by = "created_at" →
       List.Sorted
         (Mcp.keyRel (lowerStr a.sort_order == "desc") strLe
           (fun p => p.created_at))
         (Mcp.search_payment_history { a with limit := none } s).1 ∧
       ∀ k, ((Mcp.search_payment_history { a with limit := none } s).1).filter
             (fun p => p.created_at == k) =
           (Mcp.filterPayments a s.payments).filter
             (fun p => p.created_at == k)) ∧
    (a.sort_by = "amount" →
       List.Sorted
         (Mcp.keyRel (lowerStr a.sort_order == "desc") ratLe
           (fun p => p.amount))
         (Mcp.search_payment_history { a with limit := none } s).1 ∧
       ∀ k, ((Mcp.search_payment_history { a with limit := none } s).1).filter
             (fun p => p.amount == k) =
           (Mcp.filterPayments a s.payments).filter
             (fun p => p.amount == k)) ∧
    (a.sort_by = "scheduled_date" →
       List.Sorted
         (Mcp.keyRel (lowerStr a.sort_order == "desc") strLe Mcp.schedKey)
         (Mcp.search_payment_history { a with limit := none } s).1 ∧
       ∀ k, ((Mcp.search_payment_history { a with limit := none } s).1).filter
             (fun p => Mcp.schedKey p == k) =
           (Mcp.filterPayments a s.payments).filter
             (fun p => Mcp.schedKey p == k)) ∧
    (Mcp.search_payment_history a s).2 = s := by
  have hN : (Mcp.search_payment_history { a with limit := none } s).1 =
      Mcp.sortPayments a.sort_by a.sort_order
        (Mcp.filterPayments a s.payments) := rfl
  refine ⟨?_, ?_, ?_, ?_, ?_, rfl⟩
  · intro p
    rw [hN, mem_sortPayments, mem_filterPayments]
  · intro l
    rfl
  · intro h
    have hsb : (a.sort_by == "created_at") = true := by simp [h]
    haveI : IsTotal Mcp.Payment
        (Mcp.keyRel (lowerStr a.sort_order == "desc") strLe
          (fun p => p.created_at)) :=
      ⟨keyRel_total _ _ _ strLe_total⟩
    haveI : IsTrans Mcp.Payment
        (Mcp.keyRel (lowerStr a.sort_order == "desc") strLe
          (fun p => p.created_at)) :=
      ⟨keyRel_trans _ _ _ strLe_trans⟩
    constructor
    · rw [hN]
      simp only [Mcp.sortPayments, hsb, if_true]
      exact List.sorted_insertionSort _ _
    · intro k
      rw [hN]
      simp only [Mcp.sortPayments, hsb, if_true]
      refine filter_insertionSort _ _ ?_ _
      intro p q hp hq
      refine keyRel_of_key_eq _ _ _ strLe_refl p q ?_
      simp only [beq_iff_eq] at hp hq
      rw [hp, hq]
  · intro h
    have h1 : (a.sort_by == "created_at") = false := by simp [h]
    have hsb : (a.sort_by == "amount") = true := by simp [h]
    haveI : IsTotal Mcp.Payment
        (Mcp.keyRel (lowerStr a.sort_order == "desc") ratLe
          (fun p => p.amount)) :=
      ⟨keyRel_total _ _ _ ratLe_total⟩
    haveI : IsTrans Mcp.Payment
        (Mcp.keyRel (lowerStr a.sort_order == "desc") ratLe
          (fun p => p.amount)) :=
      ⟨keyRel_trans _ _ _ ratLe_trans⟩
    constructor
    · rw [hN]
      simp only [Mcp.sortPayments, h1, hsb, if_true, Bool.false_eq_true,
        if_false]
      exact List.sorted_insertionSort _ _
    · intro k
      rw [hN]
      simp only [Mcp.sortPayments, h1, hsb, if_true, Bool.false_eq_true,
        if_false]
      refine filter_insertionSort _ _ ?_ _
      intro p q hp hq
      refine keyRel_of_key_eq _ _ _ ratLe_refl p q ?_
      simp only [beq_iff_eq] at hp hq
      rw [hp, hq]
  · intro h
    have h1 : (a.sort_by == "created_at") = false := by simp [h]
    have h2 : (a.sort_by == "amount") = false := by simp [h]
    have hsb : (a.sort_by == "scheduled_date") = true := by simp [h]
    haveI : IsTotal Mcp.Payment
        (Mcp.keyRel (lowerStr a.sort_order == "desc") strLe Mcp.schedKey) :=
      ⟨keyRel_total _ _ _ strLe_total⟩
    haveI : IsTrans Mcp.Payment
        (Mcp.keyRel (lowerStr a.sort_order == "desc") strLe Mcp.schedKey) :=
      ⟨keyRel_trans _ _ _ strLe_trans⟩
    constructor
    · rw [hN]
      simp only [Mcp.sortPayments, h1, h2, hsb, if_true, Bool.false_eq_true,
        if_false]
      exact List.sorted_insertionSort _ _
    · intro k
      rw [hN]
      simp only [Mcp.sortPayments, h1, h2, hsb, if_true, Bool.false_eq_true,
        if_false]
      refine filter_insertionSort _ _ ?_ _
      intro p q hp hq
      refine keyRel_of_key_eq _ _ _ strLe_refl p q ?_
      simp only [beq_iff_eq] at hp hq
      rw [hp, hq]

/-- Claim C9, witness: under the default sort the result over the
two-payment store is sorted descending by creation date and contains
the stored payment. -/
theorem c9_witness :
    List.Sorted
      (Mcp.keyRel (lowerStr "desc" == "desc") strLe (fun p => p.created_at))
      (Mcp.search_payment_history Fix.argsDefault Fix.mcpPay).1 ∧
    Fix.pUSD ∈ (Mcp.search_payment_history Fix.argsDefault Fix.mcpPay).1 := by
  have h := c9_search_payment_history Fix.argsDefault Fix.mcpPay
  exact ⟨(h.2.2.1 rfl).1, (h.1 Fix.pUSD).mpr ⟨by decide, by decide⟩⟩

/-- Claim C10, counterexample: with `bank_code=""` provided, the
truthiness test skips the exact-match filter, so a beneficiary whose
bank code is `"B1"`, not `""`, is returned. -/
theorem c10_counterexample :
    (Mcp.search_beneficiaries none (some "") Fix.mcpBens).1 =
      [Fix.ben0, Fix.ben1] ∧
    Fix.ben1.bank_code ≠ "" := by
  exact ⟨rfl, by decide⟩

/-- Claim C10 (amended): `search_beneficiaries` leaves the store
unchanged and returns exactly the stored beneficiaries that match a
provided name as a case-insensitive substring and, when a non-empty
bank code is provided, have exactly that bank code; a provided empty
bank code (like an absent one) matches all rows. -/
theorem c10_search_beneficiaries (name bank_code : Option String)
    (s : Mcp.State) :
    (Mcp.search_beneficiaries name bank_code s).2 = s ∧
    ∀ b, b ∈ (Mcp.search_beneficiaries name bank_code s).1 ↔
      b ∈ s.beneficiaries ∧
      (∀ n, name = some n → containsCI n b.name = true) ∧
      (∀ c, bank_code = some c → c ≠ "" → b.bank_code = c) := by
  constructor
  · cases name <;> cases bank_code <;> rfl
  · intro b
    cases name with
    | none =>
      cases bank_code with
      | none => simp [Mcp.search_beneficiaries]
      | some c =>
        by_cases hc : c = ""
        · simp [Mcp.search_beneficiaries, hc]
        · simp [Mcp.search_beneficiaries, hc, List.mem_filter, beq_iff_eq]
    | some n =>
      by_cases hn : n = ""
      · cases bank_code with
        | none =>
          simp [Mcp.search_beneficiaries, hn, containsCI_empty]
        | some c =>
          by_cases hc : c = ""
          · simp [Mcp.search_beneficiaries, hn, hc, containsCI_empty]
          · simp [Mcp.search_beneficiaries, hn, hc, containsCI_empty,
              List.mem_filter, beq_iff_eq]
      · cases bank_code with
        | none =>
          simp [Mcp.search_beneficiaries, hn, List.mem_filter, and_assoc]
        | some c =>
          by_cases hc : c = ""
          · simp [Mcp.search_beneficiaries, hn, hc, List.mem_filter,
              and_assoc]
          · simp [Mcp.search_beneficiaries, hn, hc, List.mem_filter,
              and_assoc, beq_iff_eq]
            intro _
            constructor
            · rintro ⟨h1, h2⟩
              exact ⟨h2, h1⟩
            · rintro ⟨h1, h2⟩
              exact ⟨h2, h1⟩

/-- Claim C10, witness: searching for the substring "alice" finds the
matching beneficiary case-insensitively and the store is unchanged. -/
theorem c10_witness :
    (Mcp.search_beneficiaries (some "alice") none Fix.mcpBens).2 =
      Fix.mcpBens ∧
    Fix.ben1 ∈ (Mcp.search_beneficiaries (some "alice") none
      Fix.mcpBens).1 := by
  have h := c10_search_beneficiaries (some "alice") none Fix.mcpBens
  refine ⟨h.1, (h.2 Fix.ben1).mpr ⟨by decide, ?_, ?_⟩⟩
  · intro n hn
    cases hn
    decide
  · intro c hc
    cases hc
